import Mathlib

/-!
# ocm-operator: GitLab identity provider

A shallow embedding of

* `pkg/utils/utils.go` (`ContainsString`),
* `api/v1alpha1/gitlabidentityprovider_types.go` (the resource type and its methods),
* `controllers/reconcilers/gitlabidentityprovider/controller.go` (the three reconcile
  entry points),

followed by the properties established about them.

Conventions.  A Go `string` is a `String`, a slice is a `List`, a `time.Duration` is a
`Nat` (nanoseconds).  A Go `error` value is an `Option GoError` (`none` is `nil`).  A method
with a pointer receiver is a function that returns its result together with the receiver
as it is after the call.  A `for ... range` loop is a recursion over the elements that
remain to be visited.
-/

set_option autoImplicit false

/-! ## Go errors -/

/-- A Go `error` value.  `New` is `errors.New`, `Wrapf` is `fmt.Errorf` with one `%w` verb
(the text before the verb is kept), `TypeConvert` is the value built by
`request.TypeConvertError` and `AddFinalizer` the one built by
`controllers.AddFinalizerError`. -/
inductive GoError where
  | New (msg : String)
  | Wrapf (msg : String) (inner : GoError)
  | TypeConvert (target : String)
  | AddFinalizer (inner : GoError)
  deriving DecidableEq, Repr

namespace GoError

/-- The method `Error()`: the message of an error.  The texts of the last two kinds are
those of packages outside the files described here; nothing below depends on them. -/
def Error : GoError → String
  | New msg => msg
  | Wrapf msg inner => msg ++ inner.Error
  | TypeConvert target => "unable to convert request to type " ++ target
  | AddFinalizer inner => "unable to add finalizer - " ++ inner.Error

/-- The method `Unwrap()`: the error wrapped by this one, if any. -/
def Unwrap : GoError → Option GoError
  | New _ => none
  | Wrapf _ inner => some inner
  | TypeConvert _ => none
  | AddFinalizer inner => some inner

end GoError

/-! ## `pkg/utils/utils.go` -/

namespace utils

/-- `ContainsString` determines if a string is in an array of strings.  The loop
`for item := range list` visits the elements from the first to the last and returns
`true` at the first one equal to `str`; `false` is returned after the loop. -/
def ContainsString : List String → String → Bool
  | [], _ => false
  | item :: rest, str => if str == item then true else ContainsString rest str

end utils

/-! ## Kubernetes and OCM SDK types used by the resource -/

namespace metav1

/-- The `metav1.TypeMeta` of an object. -/
structure TypeMeta where
  Kind : String := ""
  APIVersion : String := ""
  deriving DecidableEq, Repr

/-- The fields of `metav1.ObjectMeta` the operator reads or writes. -/
structure ObjectMeta where
  Name : String := ""
  Namespace : String := ""
  Finalizers : List String := []
  DeletionTimestamp : Option Nat := none
  deriving DecidableEq, Repr

/-- A `metav1.Condition`. -/
structure Condition where
  Type_ : String := ""
  Status : String := ""
  ObservedGeneration : Int := 0
  LastTransitionTime : Nat := 0
  Reason : String := ""
  Message : String := ""
  deriving DecidableEq, Repr

end metav1

namespace configv1

/-- A `configv1.SecretNameReference`. -/
structure SecretNameReference where
  Name : String := ""
  deriving DecidableEq, Repr

/-- A `configv1.ConfigMapNameReference`. -/
structure ConfigMapNameReference where
  Name : String := ""
  deriving DecidableEq, Repr

end configv1

namespace clustersmgmtv1

/-- The constant `IdentityProviderTypeGitlab` of the OCM SDK. -/
def IdentityProviderTypeGitlab : String := "GitlabIdentityProvider"

/-- The OCM SDK builder of the GitLab part of an identity provider.  The SDK keeps each
attribute with a bit telling whether a setter was called for it; here an attribute is
`none` until its setter is called. -/
structure GitlabIdentityProviderBuilder where
  ca : Option String := none
  url : Option String := none
  clientID : Option String := none
  clientSecret : Option String := none
  deriving DecidableEq, Repr

namespace GitlabIdentityProviderBuilder

/-- The setter `CA`. -/
def CA (b : GitlabIdentityProviderBuilder) (value : String) : GitlabIdentityProviderBuilder :=
  { b with ca := some value }

/-- The setter `URL`. -/
def URL (b : GitlabIdentityProviderBuilder) (value : String) : GitlabIdentityProviderBuilder :=
  { b with url := some value }

/-- The setter `ClientID`. -/
def ClientID (b : GitlabIdentityProviderBuilder) (value : String) :
    GitlabIdentityProviderBuilder :=
  { b with clientID := some value }

/-- The setter `ClientSecret`. -/
def ClientSecret (b : GitlabIdentityProviderBuilder) (value : String) :
    GitlabIdentityProviderBuilder :=
  { b with clientSecret := some value }

end GitlabIdentityProviderBuilder

/-- The constructor `NewGitlabIdentityProvider()`: no attribute is set. -/
def NewGitlabIdentityProvider : GitlabIdentityProviderBuilder := {}

/-- The OCM SDK builder of an identity provider, with the attributes this operator sets. -/
structure IdentityProviderBuilder where
  mappingMethod : Option String := none
  name : Option String := none
  type_ : Option String := none
  gitlab : Option GitlabIdentityProviderBuilder := none
  deriving DecidableEq, Repr

namespace IdentityProviderBuilder

/-- The setter `MappingMethod`. -/
def MappingMethod (b : IdentityProviderBuilder) (value : String) : IdentityProviderBuilder :=
  { b with mappingMethod := some value }

/-- The setter `Name`. -/
def Name (b : IdentityProviderBuilder) (value : String) : IdentityProviderBuilder :=
  { b with name := some value }

/-- The setter `Type`. -/
def Type_ (b : IdentityProviderBuilder) (value : String) : IdentityProviderBuilder :=
  { b with type_ := some value }

/-- The setter `Gitlab`. -/
def Gitlab (b : IdentityProviderBuilder) (value : GitlabIdentityProviderBuilder) :
    IdentityProviderBuilder :=
  { b with gitlab := some value }

end IdentityProviderBuilder

/-- The constructor `NewIdentityProvider()`: no attribute is set. -/
def NewIdentityProvider : IdentityProviderBuilder := {}

/-- The GitLab part of an identity provider object read from OCM; an attribute never set
is `none`. -/
structure GitlabIdentityProvider where
  ca : Option String := none
  url : Option String := none
  clientID : Option String := none
  deriving DecidableEq, Repr

/-- An identity provider object read from OCM. -/
structure IdentityProvider where
  gitlab : Option GitlabIdentityProvider := none
  deriving DecidableEq, Repr

/-- The getter `Gitlab()` on a `*IdentityProvider`: `nil` for a `nil` receiver or when the
attribute is not set. -/
def IdentityProvider.Gitlab (o : Option IdentityProvider) : Option GitlabIdentityProvider :=
  o.bind fun p => p.gitlab

/-- The getter `CA()` on a `*GitlabIdentityProvider`: the empty string for a `nil` receiver
or when the attribute is not set. -/
def GitlabIdentityProvider.CA (o : Option GitlabIdentityProvider) : String :=
  ((o.bind fun p => p.ca).getD "")

/-- The getter `URL()`, with the same convention as `CA()`. -/
def GitlabIdentityProvider.URL (o : Option GitlabIdentityProvider) : String :=
  ((o.bind fun p => p.url).getD "")

/-- The getter `ClientID()`, with the same convention as `CA()`. -/
def GitlabIdentityProvider.ClientID (o : Option GitlabIdentityProvider) : String :=
  ((o.bind fun p => p.clientID).getD "")

end clustersmgmtv1

/-! ## `api/v1alpha1/gitlabidentityprovider_types.go` -/

namespace v1alpha1

/-- The key of the client secret in the referenced secret. -/
def GitLabClientSecretKey : String := "clientSecret"

/-- The key reserved for the access token. -/
def GitLabAccessTokenKey : String := "accessToken"

/-- The key of the CA bundle in the referenced config map. -/
def GitLabCAKey : String := "ca.crt"

/-- `GitLabIdentityProviderSpec` defines the desired state of `GitLabIdentityProvider`. -/
structure GitLabIdentityProviderSpec where
  ClientID : String := ""
  ClientSecret : configv1.SecretNameReference := {}
  URL : String := ""
  CA : configv1.ConfigMapNameReference := {}
  MappingMethod : String := ""
  ClusterName : String := ""
  DisplayName : String := ""
  deriving DecidableEq, Repr

/-- `GitLabIdentityProviderStatus` defines the observed state of `GitLabIdentityProvider`. -/
structure GitLabIdentityProviderStatus where
  Conditions : List metav1.Condition := []
  ClusterID : String := ""
  ProviderID : String := ""
  CallbackURL : String := ""
  deriving DecidableEq, Repr

/-- `GitLabIdentityProvider` is the schema for the gitlabidentityproviders API. -/
structure GitLabIdentityProvider where
  TypeMeta : metav1.TypeMeta := {}
  ObjectMeta : metav1.ObjectMeta := {}
  Spec : GitLabIdentityProviderSpec := {}
  Status : GitLabIdentityProviderStatus := {}
  deriving DecidableEq, Repr

end v1alpha1

namespace kubernetes

/-- The `kubernetes.Client` as `FindAll` uses it: what one call of `List` leaves in the
list object it is given, and the error it returns. -/
structure Client where
  List : List v1alpha1.GitLabIdentityProvider × Option GoError

end kubernetes

namespace v1alpha1

namespace GitLabIdentityProvider

/-- `FindAll` gets a complete list of resources in the cluster for this type. -/
def FindAll (_gitlab : GitLabIdentityProvider) (c : kubernetes.Client) :
    List GitLabIdentityProvider × Option GoError :=
  match c.List with
  | (_, some err) => ([], some (GoError.Wrapf "unable to retrieve gitlab identity providers - " err))
  | (objects, none) => (objects, none)

/-- The loop of `FindAllByClusterID`: `objects` are the elements still to visit, `matches_`
the slice `matches` built so far; a visited element whose `Status.ClusterID` is
`clusterID` is appended to it. -/
def FindAllByClusterID.loop (clusterID : String) :
    List GitLabIdentityProvider → List GitLabIdentityProvider → List GitLabIdentityProvider
  | [], matches_ => matches_
  | object :: rest, matches_ =>
    if object.Status.ClusterID == clusterID then
      FindAllByClusterID.loop clusterID rest (matches_ ++ [object])
    else
      FindAllByClusterID.loop clusterID rest matches_

/-- `FindAllByClusterID` gets a list of resources which have a particular cluster ID in the
status field. -/
def FindAllByClusterID (gitlab : GitLabIdentityProvider) (c : kubernetes.Client)
    (clusterID : String) : List GitLabIdentityProvider × Option GoError :=
  match gitlab.FindAll c with
  | (_, some err) => ([], some err)
  | (objects, none) => (FindAllByClusterID.loop clusterID objects [], none)

/-- `ExistsForClusterID` returns if a particular object is associated with a cluster ID. -/
def ExistsForClusterID (gitlab : GitLabIdentityProvider) (c : kubernetes.Client)
    (clusterID : String) : Bool × Option GoError :=
  let (objects, err) := gitlab.FindAllByClusterID c clusterID
  (decide (objects.length > 0), err)

/-- `GetClusterID` gets the `status.clusterID` field from the object. -/
def GetClusterID (gitlab : GitLabIdentityProvider) : String × GitLabIdentityProvider :=
  (gitlab.Status.ClusterID, gitlab)

/-- `GetConditions` returns the `status.conditions` field from the object. -/
def GetConditions (gitlab : GitLabIdentityProvider) :
    List metav1.Condition × GitLabIdentityProvider :=
  (gitlab.Status.Conditions, gitlab)

/-- `SetConditions` sets the `status.conditions` field of the object. -/
def SetConditions (gitlab : GitLabIdentityProvider) (conditions : List metav1.Condition) :
    Unit × GitLabIdentityProvider :=
  ((), { gitlab with Status := { gitlab.Status with Conditions := conditions } })

/-- `CopyFrom` copies a GitLab identity provider into an object that is able to be
reconciled. -/
def CopyFrom (gitlab : GitLabIdentityProvider) (source : Option clustersmgmtv1.IdentityProvider) :
    Unit × GitLabIdentityProvider :=
  let g1 : GitLabIdentityProvider :=
    { gitlab with Spec := { gitlab.Spec with
        CA := { Name := clustersmgmtv1.GitlabIdentityProvider.CA
                  (clustersmgmtv1.IdentityProvider.Gitlab source) } } }
  let g2 : GitLabIdentityProvider :=
    { g1 with Spec := { g1.Spec with
        URL := clustersmgmtv1.GitlabIdentityProvider.URL
                  (clustersmgmtv1.IdentityProvider.Gitlab source) } }
  let g3 : GitLabIdentityProvider :=
    { g2 with Spec := { g2.Spec with
        ClientID := clustersmgmtv1.GitlabIdentityProvider.ClientID
                  (clustersmgmtv1.IdentityProvider.Gitlab source) } }
  ((), g3)

/-- `Builder` returns the builder object from a reconciler object.  This object is used to
pass into the OCM API for creating the object. -/
def Builder (gitlab : GitLabIdentityProvider) (ca clientSecret : String) :
    clustersmgmtv1.IdentityProviderBuilder × GitLabIdentityProvider :=
  let builder :=
    ((clustersmgmtv1.NewIdentityProvider.MappingMethod gitlab.Spec.MappingMethod).Name
      gitlab.Spec.DisplayName).Type_ clustersmgmtv1.IdentityProviderTypeGitlab
  let gitlabIDP :=
    ((clustersmgmtv1.NewGitlabIdentityProvider.URL gitlab.Spec.URL).ClientSecret
      clientSecret).ClientID gitlab.Spec.ClientID
  let gitlabIDP := if ca != "" then gitlabIDP.CA ca else gitlabIDP
  (builder.Gitlab gitlabIDP, gitlab)

end GitLabIdentityProvider

/-- The three status identifiers of a resource. -/
def StatusIdentifiers (gitlab : GitLabIdentityProvider) : String × String × String :=
  (gitlab.Status.ClusterID, gitlab.Status.ProviderID, gitlab.Status.CallbackURL)

end v1alpha1

/-! ## Controller runtime, requests, requeue results and phases

The packages `controllers`, `controllers/request`, `controllers/requeue`,
`controllers/phases` and `controllers/triggers` are used by the controller file; the parts
of them that the reconcile entry points rely on are described here. -/

namespace ctrl

/-- A `ctrl.Result` of controller-runtime. -/
structure Result where
  Requeue : Bool := false
  RequeueAfter : Nat := 0
  deriving DecidableEq, Repr

end ctrl

namespace triggers

/-- Modelled from the spec: the package `controllers/triggers` is not among the embedded
files.  A reconcile event is classified as exactly one of Create, Update and Delete. -/
inductive Trigger where
  | Create
  | Update
  | Delete
  deriving DecidableEq, Repr

end triggers

/-- What a function of Go type `func() (ctrl.Result, error)` returns. -/
abbrev Returned : Type := ctrl.Result × Option GoError

/-- Everything a reconciliation can read or change: `Original` is the watched resource
that `req.Original` points to (metadata with the finalizers, spec and status), `Ext` stands
for all the rest (the remote control plane, secrets and config maps, the event log). -/
structure World (ρ : Type) where
  Original : v1alpha1.GitLabIdentityProvider
  Ext : ρ

namespace gitlabidentityprovider

/-- The default requeue interval, `30 * time.Second`, in nanoseconds. -/
def defaultGitLabIdentityProviderRequeue : Nat := 30 * 1000000000

/-- `Controller` reconciles a `GitLabIdentityProvider` object.  The client, scheme,
connection, recorder and logger are handles into the world; `Interval` is kept. -/
structure Controller where
  Interval : Nat := 0
  deriving DecidableEq, Repr

/-- Modelled from the spec: the declaration of `GitLabIdentityProviderRequest` is in
`request.go` of the controller package, which is not among the embedded files.  The request
envelope wraps one delivered event: the key of the event, and a reference back to the owning
controller; the resource object it refers to (`Original`) lives in the `World`. -/
structure GitLabIdentityProviderRequest where
  Namespace : String := ""
  Name : String := ""
  Reconciler : Controller := {}
  deriving DecidableEq, Repr

end gitlabidentityprovider

namespace request

/-- A `request.Request` is an interface value; its concrete kind is either the GitLab
identity provider request (a non-nil pointer) or the request type of another controller,
named by `kind`. -/
inductive Request where
  | GitLab (req : gitlabidentityprovider.GitLabIdentityProviderRequest)
  | Other (kind : String)
  deriving DecidableEq, Repr

/-- Modelled from the spec: `request.TypeConvertError` is in `controllers/request`, not
among the embedded files.  It builds the error of an envelope type-mismatch (the dispatched
request does not match the expected resource kind); `target` names the expected type. -/
def TypeConvertError (target : String) : GoError := GoError.TypeConvert target

end request

namespace controllers

/-- Modelled from the spec: `controllers.AddFinalizerError` is in `controllers`, not among
the embedded files.  It wraps the error of a failed finalizer persist call. -/
def AddFinalizerError (err : GoError) : GoError := GoError.AddFinalizer err

end controllers

namespace requeue

/-- A returned result asks for a retry when it sets `Requeue` or a positive
`RequeueAfter`. -/
def Retried (result : ctrl.Result) : Bool :=
  result.Requeue || decide (0 < result.RequeueAfter)

/-- Modelled from the spec: `requeue.OnError` is in `controllers/requeue`, not among the
embedded files.  The requeue classifier sorts a failure into a local programming error (an
envelope that does not match the expected resource kind: always fatal, no automatic retry)
or an external or transient error (requeued; a finalizer persist conflict is always retried
with the standard requeue interval).  The error itself is returned unchanged.  `req` is
`none` for the nil request that the failed type conversion leaves.  The function is given
the request and the error and returns a result and an error: it is a function of these two
arguments. -/
def OnError (_req : Option gitlabidentityprovider.GitLabIdentityProviderRequest)
    (err : GoError) : Returned :=
  match err with
  | GoError.TypeConvert _ => ({}, some err)
  | _ =>
    ({ Requeue := true,
       RequeueAfter := gitlabidentityprovider.defaultGitLabIdentityProviderRequeue }, some err)

end requeue

namespace phases

/-- One step of the trace of a reconciliation: the call of `controllers.AddFinalizer`, or
the execution of the phase with the given name. -/
inductive Step where
  | AddFinalizer
  | Phase (name : String)
  deriving DecidableEq, Repr

/-- What a reconcile entry point leaves: the returned result and error, the world after the
call, and the steps that were executed, in order. -/
structure Run (ρ : Type) where
  Result : ctrl.Result
  Err : Option GoError
  World : World ρ
  Steps : List Step

/-- Modelled from the spec: the type `Phase` is in `controllers/phases`, not among the
embedded files.  A phase is a name plus a unit of work returning a requeue signal and an
error.  The unit of work is a closure over the request; its effects are on the world. -/
structure Phase (ρ : Type) where
  Name : String
  Function : World ρ → Returned × World ρ

/-- Modelled from the spec: the constructor `phases.NewPhase` of a phase from its name and
its unit of work. -/
def NewPhase {ρ : Type} (name : String) (function : World ρ → Returned × World ρ) : Phase ρ :=
  { Name := name, Function := function }

/-- Modelled from the spec: the type `Handler` is in `controllers/phases`, not among the
embedded files.  A pipeline is an ordered sequence of phases bound to one request. -/
structure Handler (ρ : Type) where
  Request : gitlabidentityprovider.GitLabIdentityProviderRequest
  Phases : List (Phase ρ)

/-- Modelled from the spec: the constructor `phases.NewHandler` of a pipeline from the
request and the phases in declared order. -/
def NewHandler {ρ : Type} (req : gitlabidentityprovider.GitLabIdentityProviderRequest)
    (phases : List (Phase ρ)) : Handler ρ :=
  { Request := req, Phases := phases }

/-- Modelled from the spec: the tri-state outcome of a phase, `Continue` (proceed to the
next phase), `RequeueAfter` (stop, schedule a retry, no error) or `Fail` (stop, with the
error). -/
inductive Outcome where
  | Continue
  | RequeueAfter (duration : Nat)
  | Fail (err : GoError)
  deriving DecidableEq, Repr

/-- Modelled from the spec: how the pair a phase returns is read as a tri-state outcome.  An
error is `Fail`; without error a requeue signal is `RequeueAfter`; anything else is
`Continue`. -/
def Outcome.of (out : Returned) : Outcome :=
  match out.2 with
  | some err => Outcome.Fail err
  | none => if requeue.Retried out.1 then Outcome.RequeueAfter out.1.RequeueAfter
            else Outcome.Continue

/-- Modelled from the spec: `Handler.Execute` is in `controllers/phases`, not among the
embedded files.  It executes the phases strictly in declared order; `Continue` proceeds to
the next phase, `RequeueAfter` and `Fail` stop immediately and what the phase returned is
the outcome (the error of the outcome equals the error of that phase).  After the last phase
the pipeline is done: no requeue, no error. -/
def Execute.run {ρ : Type} : List (Phase ρ) → World ρ → Run ρ
  | [], w => { Result := {}, Err := none, World := w, Steps := [] }
  | p :: rest, w =>
    match p.Function w with
    | (out, w1) =>
      match Outcome.of out with
      | Outcome.Continue =>
        let done := Execute.run rest w1
        { done with Steps := Step.Phase p.Name :: done.Steps }
      | _ => { Result := out.1, Err := out.2, World := w1, Steps := [Step.Phase p.Name] }

/-- Modelled from the spec: the method `Execute` of a handler runs its phases from the
first one. -/
def Handler.Execute {ρ : Type} (h : Handler ρ) (w : World ρ) : Run ρ :=
  Execute.run h.Phases w

end phases

/-! ## `controllers/reconcilers/gitlabidentityprovider/controller.go` -/

namespace gitlabidentityprovider

/-- The functions the reconcile entry points call whose bodies are in files of the
repository that are not embedded (`controllers.AddFinalizer`, `phases.HandleClusterPhase`,
`phases.Complete`, `phases.CompleteDestroy`, and the controller methods `GetCurrentState`,
`ApplyIdentityProvider`, `Destroy`).  They are parameters: each may return any result and
change the world in any way.  The controller argument stands for what the call takes from
`r` (the client, the logger `r.Log`), the request argument for what it takes from `req`
(the context, the cluster client built from `req.Reconciler.Connection` and
`req.GetClusterName()`); the object `req.Original` is in the world. -/
structure Env (ρ : Type) where
  AddFinalizer : Controller → World ρ → Option GoError × World ρ
  HandleClusterPhase : Controller → GitLabIdentityProviderRequest → triggers.Trigger →
    World ρ → Returned × World ρ
  GetCurrentState : Controller → GitLabIdentityProviderRequest → World ρ → Returned × World ρ
  ApplyIdentityProvider : Controller → GitLabIdentityProviderRequest → World ρ →
    Returned × World ρ
  Complete : Controller → GitLabIdentityProviderRequest → triggers.Trigger → World ρ →
    Returned × World ρ
  Destroy : Controller → GitLabIdentityProviderRequest → World ρ → Returned × World ρ
  CompleteDestroy : Controller → GitLabIdentityProviderRequest → World ρ → Returned × World ρ

namespace Controller

/-- `ReconcileCreate` performs the reconciliation logic when a create event triggered the
reconciliation. -/
def ReconcileCreate {ρ : Type} (r : Controller) (env : Env ρ)
    (reconcileRequest : request.Request) (w : World ρ) : phases.Run ρ :=
  match reconcileRequest with
  | request.Request.Other _ =>
    let out := requeue.OnError none (request.TypeConvertError "GitLabIdentityProviderRequest")
    { Result := out.1, Err := out.2, World := w, Steps := [] }
  | request.Request.GitLab req =>
    match env.AddFinalizer r w with
    | (some err, w1) =>
      let out := requeue.OnError (some req) (controllers.AddFinalizerError err)
      { Result := out.1, Err := out.2, World := w1, Steps := [phases.Step.AddFinalizer] }
    | (none, w1) =>
      let done := (phases.NewHandler req [
        phases.NewPhase "HandleUpstreamCluster"
          (fun w => env.HandleClusterPhase r req triggers.Trigger.Create w),
        phases.NewPhase "GetCurrentState" (fun w => env.GetCurrentState r req w),
        phases.NewPhase "ApplyIdentityProvider" (fun w => env.ApplyIdentityProvider r req w),
        phases.NewPhase "Complete" (fun w => env.Complete r req triggers.Trigger.Create w)
      ]).Execute w1
      { done with Steps := phases.Step.AddFinalizer :: done.Steps }

/-- `ReconcileUpdate` performs the reconciliation logic when an update event triggered the
reconciliation.  Create and update share identical logic, so it calls `ReconcileCreate`. -/
def ReconcileUpdate {ρ : Type} (r : Controller) (env : Env ρ)
    (reconcileRequest : request.Request) (w : World ρ) : phases.Run ρ :=
  r.ReconcileCreate env reconcileRequest w

/-- `ReconcileDelete` performs the reconciliation logic when a delete event triggered the
reconciliation. -/
def ReconcileDelete {ρ : Type} (r : Controller) (env : Env ρ)
    (reconcileRequest : request.Request) (w : World ρ) : phases.Run ρ :=
  match reconcileRequest with
  | request.Request.Other _ =>
    let out := requeue.OnError none (request.TypeConvertError "GitLabIdentityProviderRequest")
    { Result := out.1, Err := out.2, World := w, Steps := [] }
  | request.Request.GitLab req =>
    (phases.NewHandler req [
      phases.NewPhase "Destroy" (fun w => env.Destroy r req w),
      phases.NewPhase "CompleteDestroy" (fun w => env.CompleteDestroy r req w)
    ]).Execute w

end Controller

end gitlabidentityprovider

/-! ## Two concrete environments

They are used to evaluate the reconcile entry points on concrete inputs.  The `Ext` part of
the world is the number of identity providers that exist on the remote side. -/

namespace gitlabidentityprovider

/-- The finalizer token of the examples. -/
def exampleFinalizer : String := "ocm.mobb.redhat.com/finalizer"

/-- A world with one resource named `gitlab` that carries the finalizer token and has one
remote identity provider. -/
def exampleWorld : World Nat :=
  { Original := { ObjectMeta := { Name := "gitlab", Finalizers := [exampleFinalizer] } },
    Ext := 1 }

/-- An environment in which persisting the finalizer fails with a conflict and the remote
teardown fails; `CompleteDestroy` removes every finalizer, the other phases succeed and
change nothing. -/
def failingEnv : Env Nat where
  AddFinalizer := fun _ w => (some (GoError.New "conflict"), w)
  HandleClusterPhase := fun _ _ _ w => (({}, none), w)
  GetCurrentState := fun _ _ w => (({}, none), w)
  ApplyIdentityProvider := fun _ _ w => (({}, none), w)
  Complete := fun _ _ _ w => (({}, none), w)
  Destroy := fun _ _ w => (({}, some (GoError.New "remote unavailable")), w)
  CompleteDestroy := fun _ _ w =>
    (({}, none),
      { w with Original := { w.Original with
          ObjectMeta := { w.Original.ObjectMeta with Finalizers := [] } } })

/-- An environment in which every call succeeds: `AddFinalizer` puts the token on the
resource, `ApplyIdentityProvider` creates one remote object, `Complete` asks for the
periodic resync, `Destroy` deletes the remote objects and `CompleteDestroy` removes every
finalizer. -/
def workingEnv : Env Nat where
  AddFinalizer := fun _ w =>
    (none,
      { w with Original := { w.Original with
          ObjectMeta := { w.Original.ObjectMeta with
            Finalizers := exampleFinalizer :: w.Original.ObjectMeta.Finalizers } } })
  HandleClusterPhase := fun _ _ _ w => (({}, none), w)
  GetCurrentState := fun _ _ w => (({}, none), w)
  ApplyIdentityProvider := fun _ _ w => (({}, none), { w with Ext := w.Ext + 1 })
  Complete := fun _ _ _ w =>
    (({ RequeueAfter := defaultGitLabIdentityProviderRequeue }, none), w)
  Destroy := fun _ _ w => (({}, none), { w with Ext := 0 })
  CompleteDestroy := fun _ _ w =>
    (({}, none),
      { w with Original := { w.Original with
          ObjectMeta := { w.Original.ObjectMeta with Finalizers := [] } } })

end gitlabidentityprovider

/-! ## Properties of `ContainsString` -/

/-- C8: for every list of strings and every string `str`, `ContainsString list str` is
`true` if and only if some element of the list equals `str`; it is `false` for the empty
list.  The function is total, so it returns for every input. -/
theorem ContainsString_true_iff_mem (list : List String) (str : String) :
    (utils.ContainsString list str = true ↔ ∃ item, item ∈ list ∧ item = str) ∧
    utils.ContainsString [] str = false := by
  refine ⟨?_, rfl⟩
  induction list with
  | nil => simp [utils.ContainsString]
  | cons item rest ih =>
    by_cases h : str = item
    · subst h
      simp [utils.ContainsString]
    · have h2 : ¬ item = str := fun e => h e.symm
      simp [utils.ContainsString, h, h2, ih]

/-! ## Properties of the resource type -/

namespace v1alpha1

/-- The loop of `FindAllByClusterID` appends to what was found so far the elements still to
visit that have the cluster ID, in their order. -/
theorem FindAllByClusterID.loop_eq_filter (clusterID : String)
    (objects found : List GitLabIdentityProvider) :
    GitLabIdentityProvider.FindAllByClusterID.loop clusterID objects found =
      found ++ objects.filter (fun o => o.Status.ClusterID == clusterID) := by
  induction objects generalizing found with
  | nil => simp [GitLabIdentityProvider.FindAllByClusterID.loop]
  | cons object rest ih =>
    by_cases h : object.Status.ClusterID = clusterID
    · simp [GitLabIdentityProvider.FindAllByClusterID.loop, h, ih]
    · simp [GitLabIdentityProvider.FindAllByClusterID.loop, h, ih]

/-- C4 at the resource named `gitlab` whose `Spec.DisplayName` is empty, with `ca` empty
and the client secret `secret`: the name that `Builder` gives the remote identity provider
is the empty string, the value of `Spec.DisplayName`; it is not `metadata.name`, which is
what the comment of the `DisplayName` field and the claim say it is for an empty display
name. -/
theorem Builder_empty_DisplayName_gives_empty_name :
    (GitLabIdentityProvider.Builder { ObjectMeta := { Name := "gitlab" } } "" "secret").1.name =
      some "" ∧
    (GitLabIdentityProvider.Builder { ObjectMeta := { Name := "gitlab" } } "" "secret").1.name ≠
      some "gitlab" ∧
    (GitLabIdentityProvider.ObjectMeta { ObjectMeta := { Name := "gitlab" } }).Name = "gitlab" ∧
    (GitLabIdentityProvider.Spec { ObjectMeta := { Name := "gitlab" } }).DisplayName = "" := by
  refine ⟨rfl, ?_, rfl, rfl⟩
  decide

/-- C5: for every resource `gitlab` and all strings `ca` and `clientSecret`, the builder
that `Builder` returns has the type gitlab, the mapping method of the spec, and a GitLab
part whose URL and client ID are those of the spec, whose client secret is the argument and
whose CA is set, to `ca`, if and only if `ca` is not empty; the resource is left as it
was. -/
theorem Builder_fields (gitlab : GitLabIdentityProvider) (ca clientSecret : String) :
    (gitlab.Builder ca clientSecret).1.type_ = some clustersmgmtv1.IdentityProviderTypeGitlab ∧
    (gitlab.Builder ca clientSecret).1.mappingMethod = some gitlab.Spec.MappingMethod ∧
    (∃ idp, (gitlab.Builder ca clientSecret).1.gitlab = some idp ∧
      idp.url = some gitlab.Spec.URL ∧
      idp.clientID = some gitlab.Spec.ClientID ∧
      idp.clientSecret = some clientSecret ∧
      (idp.ca.isSome = true ↔ ca ≠ "") ∧
      (ca ≠ "" → idp.ca = some ca) ∧
      (ca = "" → idp.ca = none)) ∧
    (gitlab.Builder ca clientSecret).2 = gitlab := by
  refine ⟨rfl, rfl, ?_, rfl⟩
  by_cases h : ca = ""
  · subst h
    refine ⟨(clustersmgmtv1.NewGitlabIdentityProvider.URL gitlab.Spec.URL).ClientSecret
      clientSecret |>.ClientID gitlab.Spec.ClientID, rfl, rfl, rfl, rfl, ?_, ?_, ?_⟩
    · constructor
      · intro e
        exact absurd (show false = true from e) (by decide)
      · intro e
        exact absurd rfl e
    · intro e
      exact absurd rfl e
    · intro _
      rfl
  · refine ⟨((clustersmgmtv1.NewGitlabIdentityProvider.URL gitlab.Spec.URL).ClientSecret
      clientSecret).ClientID gitlab.Spec.ClientID |>.CA ca, ?_, rfl, rfl, rfl, ?_, ?_, ?_⟩
    · simp [GitLabIdentityProvider.Builder, h, clustersmgmtv1.IdentityProviderBuilder.Gitlab]
    · simp [clustersmgmtv1.GitlabIdentityProviderBuilder.CA, h]
    · intro _
      rfl
    · intro e
      exact absurd e h

/-- C6: `GetClusterID`, `GetConditions`, `SetConditions`, `CopyFrom` and `Builder` leave
`Status.ClusterID`, `Status.ProviderID` and `Status.CallbackURL` of the resource as they
were, for every input; `GetClusterID` returns exactly `Status.ClusterID`. -/
theorem methods_keep_status_identifiers (gitlab : GitLabIdentityProvider)
    (conditions : List metav1.Condition) (source : Option clustersmgmtv1.IdentityProvider)
    (ca clientSecret : String) :
    StatusIdentifiers gitlab.GetClusterID.2 = StatusIdentifiers gitlab ∧
    StatusIdentifiers gitlab.GetConditions.2 = StatusIdentifiers gitlab ∧
    StatusIdentifiers (gitlab.SetConditions conditions).2 = StatusIdentifiers gitlab ∧
    StatusIdentifiers (gitlab.CopyFrom source).2 = StatusIdentifiers gitlab ∧
    StatusIdentifiers (gitlab.Builder ca clientSecret).2 = StatusIdentifiers gitlab ∧
    gitlab.GetClusterID.1 = gitlab.Status.ClusterID :=
  ⟨rfl, rfl, rfl, rfl, rfl, rfl⟩

/-- C7: when listing succeeds with `objects`, `FindAllByClusterID` returns the listed
resources whose `Status.ClusterID` is `clusterID`, each once and in listing order, with no
error, and `ExistsForClusterID` is `true` if and only if some listed resource has that
cluster ID; when listing fails with `err`, `FindAllByClusterID` returns the empty list with
the wrapped error and `ExistsForClusterID` returns `false` with that error. -/
theorem FindAllByClusterID_ExistsForClusterID (gitlab : GitLabIdentityProvider)
    (objects : List GitLabIdentityProvider) (err : GoError) (clusterID : String) :
    gitlab.FindAllByClusterID { List := (objects, none) } clusterID =
      (objects.filter (fun o => o.Status.ClusterID == clusterID), none) ∧
    (gitlab.ExistsForClusterID { List := (objects, none) } clusterID).2 = none ∧
    ((gitlab.ExistsForClusterID { List := (objects, none) } clusterID).1 = true ↔
      ∃ o, o ∈ objects ∧ o.Status.ClusterID = clusterID) ∧
    gitlab.FindAllByClusterID { List := (objects, some err) } clusterID =
      ([], some (GoError.Wrapf "unable to retrieve gitlab identity providers - " err)) ∧
    gitlab.ExistsForClusterID { List := (objects, some err) } clusterID =
      (false, some (GoError.Wrapf "unable to retrieve gitlab identity providers - " err)) ∧
    (GoError.Wrapf "unable to retrieve gitlab identity providers - " err).Unwrap = some err := by
  have hfind : gitlab.FindAllByClusterID { List := (objects, none) } clusterID =
      (objects.filter (fun o => o.Status.ClusterID == clusterID), none) := by
    simp [GitLabIdentityProvider.FindAllByClusterID, GitLabIdentityProvider.FindAll,
      FindAllByClusterID.loop_eq_filter]
  refine ⟨hfind, ?_, ?_, rfl, rfl, rfl⟩
  · simp [GitLabIdentityProvider.ExistsForClusterID, hfind]
  · simp only [GitLabIdentityProvider.ExistsForClusterID, hfind, decide_eq_true_eq,
      List.length_pos_iff_exists_mem]
    constructor
    · rintro ⟨o, ho⟩
      rw [List.mem_filter] at ho
      exact ⟨o, ho.1, by simpa using ho.2⟩
    · rintro ⟨o, ho, hc⟩
      exact ⟨o, List.mem_filter.mpr ⟨ho, by simpa using hc⟩⟩

end v1alpha1

/-! ## Properties of the pipeline and of the reconcile entry points -/

namespace phases

/-- An outcome is `Continue` exactly when the phase returned no error and no requeue
signal. -/
theorem Outcome.of_eq_Continue_iff (out : Returned) :
    Outcome.of out = Outcome.Continue ↔ out.2 = none ∧ requeue.Retried out.1 = false := by
  obtain ⟨res, err⟩ := out
  cases err with
  | some e => simp [Outcome.of]
  | none =>
    by_cases h : requeue.Retried res = true
    · simp [Outcome.of, h]
    · simp [Outcome.of, h]

/-- A phase that returns `Continue` is followed by the rest of the pipeline. -/
theorem Execute.run_cons_continue {ρ : Type} (p : Phase ρ) (rest : List (Phase ρ))
    (w : World ρ) (h : Outcome.of (p.Function w).1 = Outcome.Continue) :
    Execute.run (p :: rest) w =
      { Execute.run rest (p.Function w).2 with
        Steps := Step.Phase p.Name :: (Execute.run rest (p.Function w).2).Steps } := by
  rcases hp : p.Function w with ⟨out, w1⟩
  rw [hp] at h
  simp only [Execute.run, hp]
  simp only at h
  rw [h]

/-- A phase that does not return `Continue` ends the pipeline with what it returned. -/
theorem Execute.run_cons_stop {ρ : Type} (p : Phase ρ) (rest : List (Phase ρ))
    (w : World ρ) (h : Outcome.of (p.Function w).1 ≠ Outcome.Continue) :
    Execute.run (p :: rest) w =
      { Result := (p.Function w).1.1, Err := (p.Function w).1.2, World := (p.Function w).2,
        Steps := [Step.Phase p.Name] } := by
  rcases hp : p.Function w with ⟨out, w1⟩
  rw [hp] at h
  simp only [Execute.run, hp]

/-- Every step of a pipeline run is the execution of one of its phases. -/
theorem Execute.run_steps_are_phases {ρ : Type} (ps : List (Phase ρ)) (w : World ρ)
    (s : Step) (hs : s ∈ (Execute.run ps w).Steps) : ∃ p, p ∈ ps ∧ s = Step.Phase p.Name := by
  induction ps generalizing w with
  | nil => simp [Execute.run] at hs
  | cons p rest ih =>
    by_cases h : Outcome.of (p.Function w).1 = Outcome.Continue
    · rw [Execute.run_cons_continue p rest w h] at hs
      simp only [List.mem_cons] at hs
      rcases hs with hs | hs
      · exact ⟨p, List.mem_cons_self _ _, hs⟩
      · obtain ⟨q, hq, e⟩ := ih _ hs
        exact ⟨q, List.mem_cons_of_mem _ hq, e⟩
    · rw [Execute.run_cons_stop p rest w h] at hs
      simp only [List.mem_singleton] at hs
      exact ⟨p, List.mem_cons_self _ _, hs⟩

end phases

namespace gitlabidentityprovider

/-- C9: for every request, `ReconcileUpdate` returns the same result and error, leaves the
same world and performs the same sequence of steps as `ReconcileCreate` on that request. -/
theorem ReconcileUpdate_eq_ReconcileCreate {ρ : Type} (r : Controller) (env : Env ρ)
    (reconcileRequest : request.Request) (w : World ρ) :
    r.ReconcileUpdate env reconcileRequest w = r.ReconcileCreate env reconcileRequest w ∧
    (r.ReconcileUpdate env reconcileRequest w).Result =
      (r.ReconcileCreate env reconcileRequest w).Result ∧
    (r.ReconcileUpdate env reconcileRequest w).Err =
      (r.ReconcileCreate env reconcileRequest w).Err ∧
    (r.ReconcileUpdate env reconcileRequest w).Steps =
      (r.ReconcileCreate env reconcileRequest w).Steps :=
  ⟨rfl, rfl, rfl, rfl⟩

/-- C3 (as the code has it): for every request whose concrete kind is not the GitLab
identity provider request, `ReconcileCreate`, `ReconcileUpdate` and `ReconcileDelete` each
return at once what `requeue.OnError` makes of the nil request and the type-conversion
error: that error, with a result that carries no requeue signal.  No finalizer is added, no
phase is executed, and the resource is left exactly as it was: its finalizers and its
`Status.Conditions` are those before the call, so these functions write no condition. -/
theorem Reconcile_type_mismatch_returns_error {ρ : Type} (r : Controller) (env : Env ρ)
    (kind : String) (w : World ρ) :
    r.ReconcileCreate env (request.Request.Other kind) w =
      { Result := {}, Err := some (GoError.TypeConvert "GitLabIdentityProviderRequest"),
        World := w, Steps := [] } ∧
    r.ReconcileUpdate env (request.Request.Other kind) w =
      { Result := {}, Err := some (GoError.TypeConvert "GitLabIdentityProviderRequest"),
        World := w, Steps := [] } ∧
    r.ReconcileDelete env (request.Request.Other kind) w =
      { Result := {}, Err := some (GoError.TypeConvert "GitLabIdentityProviderRequest"),
        World := w, Steps := [] } ∧
    requeue.OnError none (request.TypeConvertError "GitLabIdentityProviderRequest") =
      ({}, some (GoError.TypeConvert "GitLabIdentityProviderRequest")) ∧
    (r.ReconcileCreate env (request.Request.Other kind) w).World.Original.Status.Conditions =
      w.Original.Status.Conditions ∧
    (r.ReconcileUpdate env (request.Request.Other kind) w).World.Original.Status.Conditions =
      w.Original.Status.Conditions ∧
    (r.ReconcileDelete env (request.Request.Other kind) w).World.Original.Status.Conditions =
      w.Original.Status.Conditions ∧
    (r.ReconcileCreate env (request.Request.Other kind) w).World.Original.ObjectMeta.Finalizers =
      w.Original.ObjectMeta.Finalizers ∧
    (r.ReconcileUpdate env (request.Request.Other kind) w).World.Original.ObjectMeta.Finalizers =
      w.Original.ObjectMeta.Finalizers ∧
    (r.ReconcileDelete env (request.Request.Other kind) w).World.Original.ObjectMeta.Finalizers =
      w.Original.ObjectMeta.Finalizers :=
  ⟨rfl, rfl, rfl, rfl, rfl, rfl, rfl, rfl, rfl, rfl⟩

/-- C3 (as stated) fails: for the request of kind `MachinePoolRequest` on the resource
`gitlab`, which has no condition, each of `ReconcileCreate`, `ReconcileUpdate` and
`ReconcileDelete` returns the type-conversion error and the resource still has no condition
afterwards: the error is not surfaced as a condition by these functions. -/
theorem Reconcile_type_mismatch_writes_no_condition :
    (Controller.ReconcileCreate {} workingEnv (request.Request.Other "MachinePoolRequest")
      exampleWorld).Err = some (GoError.TypeConvert "GitLabIdentityProviderRequest") ∧
    (Controller.ReconcileCreate {} workingEnv (request.Request.Other "MachinePoolRequest")
      exampleWorld).World.Original.Status.Conditions = [] ∧
    (Controller.ReconcileUpdate {} workingEnv (request.Request.Other "MachinePoolRequest")
      exampleWorld).Err = some (GoError.TypeConvert "GitLabIdentityProviderRequest") ∧
    (Controller.ReconcileUpdate {} workingEnv (request.Request.Other "MachinePoolRequest")
      exampleWorld).World.Original.Status.Conditions = [] ∧
    (Controller.ReconcileDelete {} workingEnv (request.Request.Other "MachinePoolRequest")
      exampleWorld).Err = some (GoError.TypeConvert "GitLabIdentityProviderRequest") ∧
    (Controller.ReconcileDelete {} workingEnv (request.Request.Other "MachinePoolRequest")
      exampleWorld).World.Original.Status.Conditions = [] :=
  ⟨rfl, rfl, rfl, rfl, rfl, rfl⟩

end gitlabidentityprovider

namespace gitlabidentityprovider

open phases

/-- C1: for every GitLab identity provider request, `ReconcileDelete` runs the pipeline of
the two phases `Destroy` and `CompleteDestroy`, in that order: `Destroy` is always executed
first, and `CompleteDestroy` is executed exactly when `Destroy` returned `Continue`, so
never unless `Destroy` returned no error and no requeue signal.  When `Destroy` returns an
error, that error is the returned error, `CompleteDestroy` is not executed and, `Destroy`
itself leaving the finalizers of the resource alone (`hDestroy`), the finalizers of the
resource after `ReconcileDelete` are those before it. -/
theorem ReconcileDelete_finalizer_safety {ρ : Type} (r : Controller) (env : Env ρ)
    (req : GitLabIdentityProviderRequest) (w : World ρ)
    (hDestroy : (env.Destroy r req w).2.Original.ObjectMeta.Finalizers =
      w.Original.ObjectMeta.Finalizers) :
    (r.ReconcileDelete env (request.Request.GitLab req) w).Steps =
      Step.Phase "Destroy" ::
        (if Outcome.of (env.Destroy r req w).1 = Outcome.Continue
          then [Step.Phase "CompleteDestroy"] else []) ∧
    (Step.Phase "CompleteDestroy" ∈ (r.ReconcileDelete env (request.Request.GitLab req) w).Steps →
      (env.Destroy r req w).1.2 = none ∧ requeue.Retried (env.Destroy r req w).1.1 = false) ∧
    (∀ err, (env.Destroy r req w).1.2 = some err →
      (r.ReconcileDelete env (request.Request.GitLab req) w).Err = some err ∧
      (r.ReconcileDelete env (request.Request.GitLab req) w).Steps = [Step.Phase "Destroy"] ∧
      (r.ReconcileDelete env (request.Request.GitLab req) w).World.Original.ObjectMeta.Finalizers
        = w.Original.ObjectMeta.Finalizers) := by
  have hrun : r.ReconcileDelete env (request.Request.GitLab req) w =
      Execute.run [NewPhase "Destroy" (fun w => env.Destroy r req w),
        NewPhase "CompleteDestroy" (fun w => env.CompleteDestroy r req w)] w := rfl
  by_cases h : Outcome.of (env.Destroy r req w).1 = Outcome.Continue
  · have h1 := Execute.run_cons_continue (NewPhase "Destroy" (fun w => env.Destroy r req w))
      [NewPhase "CompleteDestroy" (fun w => env.CompleteDestroy r req w)] w h
    have hsteps : (r.ReconcileDelete env (request.Request.GitLab req) w).Steps =
        [Step.Phase "Destroy", Step.Phase "CompleteDestroy"] := by
      rw [hrun, h1]
      simp only [NewPhase, List.cons.injEq, true_and]
      by_cases h2 : Outcome.of (env.CompleteDestroy r req (env.Destroy r req w).2).1 =
          Outcome.Continue
      · rw [Execute.run_cons_continue _ _ _ h2]
        rfl
      · rw [Execute.run_cons_stop _ _ _ h2]
    refine ⟨by rw [hsteps, if_pos h], fun _ => (Outcome.of_eq_Continue_iff _).mp h, ?_⟩
    intro err herr
    rw [((Outcome.of_eq_Continue_iff _).mp h).1] at herr
    exact absurd herr (by simp)
  · have h1 := Execute.run_cons_stop (NewPhase "Destroy" (fun w => env.Destroy r req w))
      [NewPhase "CompleteDestroy" (fun w => env.CompleteDestroy r req w)] w h
    have hsteps : (r.ReconcileDelete env (request.Request.GitLab req) w).Steps =
        [Step.Phase "Destroy"] := by
      rw [hrun, h1]
      rfl
    refine ⟨by rw [hsteps, if_neg h], ?_, ?_⟩
    · intro hmem
      rw [hsteps] at hmem
      exact absurd hmem (by decide)
    · intro err herr
      refine ⟨?_, hsteps, ?_⟩
      · rw [hrun, h1]
        exact herr
      · rw [hrun, h1]
        exact hDestroy

/-- C1 at a concrete input: the teardown of `failingEnv` fails, the error is returned and
the finalizer token is still on the resource. -/
theorem ReconcileDelete_finalizer_safety_witness :
    (failingEnv.Destroy {} {} exampleWorld).2.Original.ObjectMeta.Finalizers =
      exampleWorld.Original.ObjectMeta.Finalizers ∧
    (Controller.ReconcileDelete {} failingEnv (request.Request.GitLab {}) exampleWorld).Err =
      some (GoError.New "remote unavailable") ∧
    (Controller.ReconcileDelete {} failingEnv
      (request.Request.GitLab {}) exampleWorld).World.Original.ObjectMeta.Finalizers =
      [exampleFinalizer] :=
  ⟨rfl,
   ((ReconcileDelete_finalizer_safety {} failingEnv {} exampleWorld rfl).2.2
      (GoError.New "remote unavailable") rfl).1,
   ((ReconcileDelete_finalizer_safety {} failingEnv {} exampleWorld rfl).2.2
      (GoError.New "remote unavailable") rfl).2.2⟩

/-- When `AddFinalizer` succeeds, the steps of `ReconcileCreate` are the call of
`AddFinalizer` followed by the steps of the pipeline of four phases run on the world that
`AddFinalizer` left. -/
theorem ReconcileCreate_steps_of_finalizer_added {ρ : Type} (r : Controller) (env : Env ρ)
    (req : GitLabIdentityProviderRequest) (w w1 : World ρ)
    (hAdd : env.AddFinalizer r w = (none, w1)) :
    (r.ReconcileCreate env (request.Request.GitLab req) w).Steps =
      Step.AddFinalizer :: (Execute.run [
        NewPhase "HandleUpstreamCluster"
          (fun w => env.HandleClusterPhase r req triggers.Trigger.Create w),
        NewPhase "GetCurrentState" (fun w => env.GetCurrentState r req w),
        NewPhase "ApplyIdentityProvider" (fun w => env.ApplyIdentityProvider r req w),
        NewPhase "Complete" (fun w => env.Complete r req triggers.Trigger.Create w)] w1).Steps := by
  simp only [Controller.ReconcileCreate, hAdd]
  rfl

/-- When `AddFinalizer` fails, `ReconcileCreate` returns the requeue result of the wrapped
error and executes nothing else. -/
theorem ReconcileCreate_of_finalizer_error {ρ : Type} (r : Controller) (env : Env ρ)
    (req : GitLabIdentityProviderRequest) (w w1 : World ρ) (err : GoError)
    (hAdd : env.AddFinalizer r w = (some err, w1)) :
    r.ReconcileCreate env (request.Request.GitLab req) w =
      { Result := (requeue.OnError (some req) (controllers.AddFinalizerError err)).1,
        Err := (requeue.OnError (some req) (controllers.AddFinalizerError err)).2,
        World := w1, Steps := [Step.AddFinalizer] } := by
  simp only [Controller.ReconcileCreate, hAdd]

/-- C2: for every GitLab identity provider request, `ReconcileCreate` calls `AddFinalizer`
first: the steps are the call of `AddFinalizer` followed by executions of phases only, and
a phase is executed only if `AddFinalizer` returned no error.  If `AddFinalizer` returns an
error, no phase is executed and what is returned is `requeue.OnError` applied to the
wrapped `AddFinalizerError`: that error, with a result that asks for a retry. -/
theorem ReconcileCreate_adds_finalizer_first {ρ : Type} (r : Controller) (env : Env ρ)
    (req : GitLabIdentityProviderRequest) (w : World ρ) :
    (∃ rest, (r.ReconcileCreate env (request.Request.GitLab req) w).Steps =
        Step.AddFinalizer :: rest ∧
      (∀ s, s ∈ rest → ∃ name, s = Step.Phase name) ∧
      (rest ≠ [] → (env.AddFinalizer r w).1 = none)) ∧
    (∀ err, (env.AddFinalizer r w).1 = some err →
      (r.ReconcileCreate env (request.Request.GitLab req) w).Steps = [Step.AddFinalizer] ∧
      ((r.ReconcileCreate env (request.Request.GitLab req) w).Result,
        (r.ReconcileCreate env (request.Request.GitLab req) w).Err) =
        requeue.OnError (some req) (controllers.AddFinalizerError err) ∧
      (r.ReconcileCreate env (request.Request.GitLab req) w).Err =
        some (controllers.AddFinalizerError err) ∧
      requeue.Retried (r.ReconcileCreate env (request.Request.GitLab req) w).Result = true ∧
      (r.ReconcileCreate env (request.Request.GitLab req) w).World = (env.AddFinalizer r w).2) := by
  rcases hadd : env.AddFinalizer r w with ⟨_ | e, w1⟩
  · have hsteps := ReconcileCreate_steps_of_finalizer_added r env req w w1 hadd
    refine ⟨⟨_, hsteps, ?_, fun _ => rfl⟩, ?_⟩
    · intro s hs
      obtain ⟨p, _, hp⟩ := Execute.run_steps_are_phases _ _ s hs
      exact ⟨p.Name, hp⟩
    · intro err herr
      exact absurd herr (by simp)
  · have hrun := ReconcileCreate_of_finalizer_error r env req w w1 e hadd
    refine ⟨⟨[], by rw [hrun], ?_, fun h => absurd rfl h⟩, ?_⟩
    · intro s hs
      exact absurd hs (List.not_mem_nil s)
    · intro err herr
      have he : e = err := Option.some.inj herr
      subst he
      rw [hrun]
      exact ⟨rfl, rfl, rfl, rfl, rfl⟩

/-- C2 at a concrete input: persisting the finalizer fails in `failingEnv`, only
`AddFinalizer` is executed and a retry after the default interval is returned. -/
theorem ReconcileCreate_adds_finalizer_first_witness :
    (failingEnv.AddFinalizer {} exampleWorld).1 = some (GoError.New "conflict") ∧
    (Controller.ReconcileCreate {} failingEnv (request.Request.GitLab {}) exampleWorld).Steps =
      [Step.AddFinalizer] ∧
    (Controller.ReconcileCreate {} failingEnv (request.Request.GitLab {}) exampleWorld).Err =
      some (GoError.AddFinalizer (GoError.New "conflict")) ∧
    (Controller.ReconcileCreate {} failingEnv (request.Request.GitLab {}) exampleWorld).Result =
      { Requeue := true, RequeueAfter := 30000000000 } :=
  ⟨rfl,
   ((ReconcileCreate_adds_finalizer_first {} failingEnv {} exampleWorld).2
      (GoError.New "conflict") rfl).1,
   ((ReconcileCreate_adds_finalizer_first {} failingEnv {} exampleWorld).2
      (GoError.New "conflict") rfl).2.2.1,
   by decide⟩

/-- C10: for every GitLab identity provider request for which `AddFinalizer` succeeds, the
phases that `ReconcileCreate` executes, on the world that `AddFinalizer` left, are
`HandleUpstreamCluster`, `GetCurrentState`, `ApplyIdentityProvider` and `Complete`, in this
order, each on the world the one before it left; a phase is executed exactly when every
phase before it returned `Continue`, and no phase named `ApplyGitLab` is executed. -/
theorem ReconcileCreate_pipeline_order {ρ : Type} (r : Controller) (env : Env ρ)
    (req : GitLabIdentityProviderRequest) (w w1 : World ρ)
    (hAdd : env.AddFinalizer r w = (none, w1)) :
    (r.ReconcileCreate env (request.Request.GitLab req) w).Steps =
      Step.AddFinalizer :: Step.Phase "HandleUpstreamCluster" ::
        (if Outcome.of (env.HandleClusterPhase r req triggers.Trigger.Create w1).1 =
            Outcome.Continue then
          Step.Phase "GetCurrentState" ::
            (if Outcome.of (env.GetCurrentState r req
                (env.HandleClusterPhase r req triggers.Trigger.Create w1).2).1 =
                Outcome.Continue then
              Step.Phase "ApplyIdentityProvider" ::
                (if Outcome.of (env.ApplyIdentityProvider r req
                    (env.GetCurrentState r req
                      (env.HandleClusterPhase r req triggers.Trigger.Create w1).2).2).1 =
                    Outcome.Continue then
                  [Step.Phase "Complete"]
                else [])
            else [])
        else []) ∧
    Step.Phase "ApplyGitLab" ∉ (r.ReconcileCreate env (request.Request.GitLab req) w).Steps := by
  have hrun := ReconcileCreate_steps_of_finalizer_added r env req w w1 hAdd
  constructor
  · rw [hrun]
    by_cases h1 : Outcome.of (env.HandleClusterPhase r req triggers.Trigger.Create w1).1 =
        Outcome.Continue
    · rw [if_pos h1, Execute.run_cons_continue _ _ _ h1]
      by_cases h2 : Outcome.of (env.GetCurrentState r req
          (env.HandleClusterPhase r req triggers.Trigger.Create w1).2).1 = Outcome.Continue
      · rw [if_pos h2]
        simp only [NewPhase]
        rw [Execute.run_cons_continue _ _ _ h2]
        by_cases h3 : Outcome.of (env.ApplyIdentityProvider r req
            (env.GetCurrentState r req
              (env.HandleClusterPhase r req triggers.Trigger.Create w1).2).2).1 =
            Outcome.Continue
        · rw [if_pos h3]
          simp only
          rw [Execute.run_cons_continue _ _ _ h3]
          by_cases h4 : Outcome.of (env.Complete r req triggers.Trigger.Create
              (env.ApplyIdentityProvider r req (env.GetCurrentState r req
                (env.HandleClusterPhase r req triggers.Trigger.Create w1).2).2).2).1 =
              Outcome.Continue
          · simp only
            rw [Execute.run_cons_continue _ _ _ h4]
            rfl
          · simp only
            rw [Execute.run_cons_stop _ _ _ h4]
        · rw [if_neg h3]
          simp only
          rw [Execute.run_cons_stop _ _ _ h3]
      · rw [if_neg h2]
        simp only [NewPhase]
        rw [Execute.run_cons_stop _ _ _ h2]
    · rw [if_neg h1, Execute.run_cons_stop _ _ _ h1]
      rfl
  · intro hmem
    rw [hrun] at hmem
    simp only [List.mem_cons, reduceCtorEq, false_or] at hmem
    obtain ⟨p, hp, hname⟩ := Execute.run_steps_are_phases _ _ _ hmem
    simp only [List.mem_cons, List.mem_singleton, List.not_mem_nil, or_false] at hp
    rcases hp with rfl | rfl | rfl | rfl <;> simp [NewPhase] at hname

/-- C10 at a concrete input: in `workingEnv` the finalizer is added and the four phases are
executed in order. -/
theorem ReconcileCreate_pipeline_order_witness :
    (workingEnv.AddFinalizer {} exampleWorld).1 = none ∧
    (Controller.ReconcileCreate {} workingEnv (request.Request.GitLab {}) exampleWorld).Steps =
      [Step.AddFinalizer, Step.Phase "HandleUpstreamCluster", Step.Phase "GetCurrentState",
        Step.Phase "ApplyIdentityProvider", Step.Phase "Complete"] :=
  ⟨rfl,
   (ReconcileCreate_pipeline_order {} workingEnv {} exampleWorld _ rfl).1.trans (by decide)⟩

end gitlabidentityprovider
